import Mathlib

/-!
Verification of the calendar plugin core (`src/plugins/calendar/calendar.py`):
a shallow embedding of the view-window computation (`Calendar.get_view_range`),
the event normalization / deduplication pipeline (`Calendar.fetch_ics_events`,
`Calendar.parse_data_points`), the contrast-color rule
(`Calendar.get_contrast_color`) and the validation / post-filter logic of
`Calendar.generate_image`.

Modelling conventions:
* Python `datetime.date` values are a `Date` record (year, month, day); the
  proleptic-Gregorian ordinal (`datetime.toordinal`, 0001-01-01 = 1) is
  `Date.toordinal`.  Python `//` and `%` on non-negative operands coincide
  with Lean's `Int` `/` (ediv) and `%` (emod), which also match Python's
  floor semantics for every positive divisor.
* Midnight-truncated `datetime` values (the window endpoints built by
  `datetime(y, m, d)`) are represented by their ordinal day number.
* A timezone-aware `datetime` is an absolute epoch-second count together
  with its UTC offset in minutes; `pytz` zones are modelled as fixed
  offsets (the claims under verification do not depend on DST transitions).
* Decoded ICS markers (`event.decoded("dtstart")` etc.) follow the spec's
  `RawOccurrence` data model: either a timezone-aware instant or a floating
  calendar date.
* Fallible Python code (`raise`, `KeyError`, comparison `TypeError`) is
  modelled with `Except String`.
-/

namespace Cal

/-- A Python `datetime.date`: proleptic Gregorian calendar date. -/
structure Date where
  year : Int
  month : Int
  day : Int
deriving DecidableEq, Repr

/-- Python leap-year rule (`calendar.isleap`). -/
def isLeap (y : Int) : Bool := y % 4 == 0 && (y % 100 != 0 || y % 400 == 0)

/-- Days in the year before the first of each month (non-leap). -/
def daysBeforeMonth (m : Int) : Int :=
  if m ≤ 1 then 0
  else if m = 2 then 31
  else if m = 3 then 59
  else if m = 4 then 90
  else if m = 5 then 120
  else if m = 6 then 151
  else if m = 7 then 181
  else if m = 8 then 212
  else if m = 9 then 243
  else if m = 10 then 273
  else if m = 11 then 304
  else 334

/-- Length of a month, Python `calendar.monthrange` semantics. -/
def daysInMonth (y m : Int) : Int :=
  if m = 2 then (if isLeap y then 29 else 28)
  else if m = 4 ∨ m = 6 ∨ m = 9 ∨ m = 11 then 30
  else 31

/-- The dates representable by Python `datetime.date`. -/
def Date.Valid (d : Date) : Prop :=
  1 ≤ d.year ∧ d.year ≤ 9999 ∧ 1 ≤ d.month ∧ d.month ≤ 12 ∧
    1 ≤ d.day ∧ d.day ≤ daysInMonth d.year d.month

instance (d : Date) : Decidable d.Valid := by
  unfold Date.Valid; infer_instance

/-- Days before January 1 of year `y` (for `y ≥ 1` this is Python's
`datetime._days_before_year`; `/` is floor division on the non-negative
operands that occur for valid dates). -/
def daysBeforeYear (y : Int) : Int :=
  365 * (y - 1) + (y - 1) / 4 - (y - 1) / 100 + (y - 1) / 400

/-- Python `datetime.date.toordinal`: day number with 0001-01-01 ↦ 1. -/
def Date.toordinal (d : Date) : Int :=
  daysBeforeYear d.year + daysBeforeMonth d.month +
    (if 2 < d.month ∧ isLeap d.year then 1 else 0) + d.day

/-- Python `date.weekday()` of the date with the given ordinal:
0-based with Monday = 0 (ordinal 1, i.e. 0001-01-01, was a Monday). -/
def weekdayOfOrdinal (o : Int) : Int := (o - 1) % 7

/-- Python `date.weekday()`. -/
def Date.weekday (d : Date) : Int := weekdayOfOrdinal d.toordinal

/-- The plugin settings dictionary (`settings.get(...)` fields used by the
calendar plugin; absent keys are `none`).  `weekStartDay` is stored after
Python's `int(...)` conversion. -/
structure Settings where
  viewMode : Option String := none
  calendarURLs : Option (List String) := none
  calendarColors : Option (List String) := none
  displayPreviousDays : Option String := none
  weekStartDay : Option Int := none

/-- Python `str.startswith`, as a prefix test on the character list. -/
def startswith (s pre : String) : Bool := pre.toList.isPrefixOf s.toList

/-- Python `not s.strip()`: true iff every character is whitespace. -/
def strippedEmpty (s : String) : Bool := s.toList.all Char.isWhitespace

/-- `Calendar.get_view_range(view, current_dt, settings)`.

Only the calendar-date components of `current_dt` are read (the window
endpoints are rebuilt with `datetime(y, m, d)`, and subtracting whole days
from an aware datetime shifts its wall-clock date exactly), so the argument
is the wall-clock `Date` of `current_dt` and the returned endpoints are
midnight ordinals.  A view string matching no branch leaves Python's local
variable `end` unbound (`UnboundLocalError` on `return`), modelled as
`none`. -/
def get_view_range (view : String) (settings : Settings) (today : Date) :
    Option (Int × Int) :=
  let start := today.toordinal
  if view = "timeGridDay" then
    some (start, start + 1)
  else if view = "timeGridWeek" then
    if settings.displayPreviousDays = some "true" then
      let week_start_day := settings.weekStartDay.getD 1
      let python_week_start := (week_start_day - 1) % 7
      let offset := (today.weekday - python_week_start) % 7
      let start := today.toordinal - offset
      some (start, start + 7)
    else
      some (start, start + 7)
  else if view = "dayGridMonth" then
    some ((Date.mk today.year today.month 1).toordinal - 7,
          (Date.mk today.year today.month 1).toordinal + 42)
  else if startswith view "list" then
    some (start, start + 14)
  else
    none

/-- Left-pad a natural number to two digits. -/
def pad2 (n : Nat) : String := if n < 10 then "0" ++ toString n else toString n

/-- Left-pad a natural number to four digits (Python year formatting). -/
def pad4 (n : Nat) : String :=
  if n < 10 then "000" ++ toString n
  else if n < 100 then "00" ++ toString n
  else if n < 1000 then "0" ++ toString n
  else toString n

/-- ISO-8601 date formatting, Python `date.isoformat()`: `YYYY-MM-DD`. -/
def Date.isoformat (d : Date) : String :=
  pad4 d.year.toNat ++ "-" ++ pad2 d.month.toNat ++ "-" ++ pad2 d.day.toNat

/-- Python `date.fromordinal` (inverse of `Date.toordinal`), via the
standard civil-from-days algorithm. -/
def Date.fromordinal (o : Int) : Date :=
  let z := o - 719163 + 719468
  let era := Int.fdiv z 146097
  let doe := (z - era * 146097).toNat
  let yoe := (doe - doe / 1460 + doe / 36524 - doe / 146096) / 365
  let doy := doe - (365 * yoe + yoe / 4 - yoe / 100)
  let mp := (5 * doy + 2) / 153
  let d := doy - (153 * mp + 2) / 5 + 1
  let m : Int := (mp : Int) + (if mp < 10 then 3 else -9)
  let y : Int := (yoe : Int) + era * 400
  ⟨if m ≤ 2 then y + 1 else y, m, (d : Int)⟩

/-- A timezone, modelled as a fixed UTC offset in minutes (`pytz` zones
whose offset varies across instants are immaterial to the verified
claims). -/
structure Tz where
  offMin : Int
deriving DecidableEq, Repr

/-- A timezone-aware Python `datetime`: absolute seconds since the Unix
epoch plus the UTC offset (minutes) of its `tzinfo`. -/
structure PyDateTime where
  absSec : Int
  offMin : Int
deriving DecidableEq, Repr

/-- `dt.astimezone(tz)`: same instant, target zone's offset. -/
def PyDateTime.astimezone (t : PyDateTime) (tz : Tz) : PyDateTime :=
  ⟨t.absSec, tz.offMin⟩

/-- The UTC-offset suffix of Python `datetime.isoformat()`: `±HH:MM`. -/
def offsetSuffix (off : Int) : String :=
  (if off < 0 then "-" else "+") ++ pad2 (off.natAbs / 60) ++ ":" ++
    pad2 (off.natAbs % 60)

/-- Python `datetime.isoformat()` for an aware datetime with zero
microseconds: `YYYY-MM-DDTHH:MM:SS±HH:MM`. -/
def PyDateTime.isoformat (t : PyDateTime) : String :=
  let wall := t.absSec + t.offMin * 60
  let days := Int.fdiv wall 86400
  let secs := (wall - days * 86400).toNat
  (Date.fromordinal (days + 719163)).isoformat ++ "T" ++
    pad2 (secs / 3600) ++ ":" ++ pad2 (secs % 3600 / 60) ++ ":" ++
    pad2 (secs % 60) ++ offsetSuffix t.offMin

/-- A Python `timedelta` as decoded from an ICS `DURATION` (normalized:
`0 ≤ seconds < 86400`). -/
structure Timedelta where
  days : Int
  seconds : Int
deriving DecidableEq, Repr

/-- A decoded ICS date marker (`event.decoded("dtstart")` /
`event.decoded("dtend")`), per the spec's `RawOccurrence` data model:
either a timezone-aware instant (`isinstance(_, datetime)` in the source)
or a floating calendar date. -/
inductive Marker where
  | dtVal (t : PyDateTime)
  | dateVal (d : Date)
deriving DecidableEq, Repr

/-- Python `+` on a decoded marker and a `timedelta` (`dtstart + duration`):
aware datetimes add the full delta to the wall clock (offset unchanged, so
the absolute instant shifts by the same amount); `date + timedelta` uses
only the whole-day component of the delta. -/
def Marker.add (m : Marker) (td : Timedelta) : Marker :=
  match m with
  | .dtVal t => .dtVal ⟨t.absSec + td.days * 86400 + td.seconds, t.offMin⟩
  | .dateVal d => .dateVal (Date.fromordinal (d.toordinal + td.days))

/-- `.isoformat()` on whichever shape a marker has. -/
def Marker.isoformat (m : Marker) : String :=
  match m with
  | .dtVal t => t.isoformat
  | .dateVal d => d.isoformat

/-- A decoded event record as yielded by the recurrence-expanding reader
(`load_ics_in_date_range`): `summary` is `str(event.get("summary"))` and
`dtstartRaw` is `str(event.get("dtstart"))` (the raw property object's
string form, opaque to this core); `dtstart`, `dtend`, `duration` are the
`event.decoded(...)` values. -/
structure RawOccurrence where
  summary : String
  dtstartRaw : String
  dtstart : Marker
  dtend : Option Marker
  duration : Option Timedelta
deriving DecidableEq, Repr

/-- `Calendar.parse_data_points(event, tz)`: returns
`(start, end, all_day)`. -/
def parse_data_points (event : RawOccurrence) (tz : Tz) :
    String × Option String × Bool :=
  let (start, all_day) :=
    match event.dtstart with
    | .dtVal t => ((t.astimezone tz).isoformat, false)
    | .dateVal d => (d.isoformat, true)
  let endv : Option String :=
    match event.dtend with
    | some (.dtVal t) => some (t.astimezone tz).isoformat
    | some (.dateVal d) => some d.isoformat
    | none =>
      match event.duration with
      | some duration => some (event.dtstart.add duration).isoformat
      | none => none
  (start, endv, all_day)

/-- `Calendar.get_contrast_color(color)`, after the external
`ImageColor.getrgb` parse.  The source computes
`yiq = (r*299 + g*587 + b*114) / 1000` with Python float division and
compares `yiq >= 150`.  The numerator is an integer below `2^53` and `150`
is exactly representable, so the float comparison agrees with the exact
comparison `yiq ≥ 150` over ℚ (no quotient of the form `n / 1000` rounds
across `150.0`), which in turn is `150 * 1000 ≤ n`; the embedding uses the
scaled integer form so that it evaluates in the kernel, and
`contrast_color_rule` re-states it with the rational division. -/
def get_contrast_color (rgb : Nat × Nat × Nat) : String :=
  if 150 * 1000 ≤ rgb.1 * 299 + rgb.2.1 * 587 + rgb.2.2 * 114 then "#000000"
  else "#ffffff"

/-- The event dictionary built by `Calendar.fetch_ics_events`; the `end`
key is only present when the parsed end is truthy, modelled as an
`Option`. -/
structure CanonicalEvent where
  title : String
  start : String
  backgroundColor : String
  textColor : String
  allDay : Bool
  «end» : Option String
deriving DecidableEq, Repr

/-- Python truthiness of the optional `end` string (`if end:`). -/
def truthyStr (s : Option String) : Bool :=
  match s with
  | none => false
  | some s => s ≠ ""

/-- The dedup key: `str(event.get("summary")) + "_" + str(event.get("dtstart"))`. -/
def event_key (event : RawOccurrence) : String :=
  event.summary ++ "_" ++ event.dtstartRaw

/-- The `parsed_event` dictionary built for a non-duplicate occurrence from
the source listed with color string `color` (`getrgb` is the external
`ImageColor.getrgb`). -/
def mk_parsed_event (tz : Tz) (getrgb : String → Nat × Nat × Nat)
    (p : String × RawOccurrence) : CanonicalEvent :=
  let (start, endv, all_day) := parse_data_points p.2 tz
  { title := p.2.summary
    start := start
    backgroundColor := p.1
    textColor := get_contrast_color (getrgb p.1)
    allDay := all_day
    «end» := if truthyStr endv then endv else none }

/-- One iteration of the inner loop of `Calendar.fetch_ics_events`: the
state is the pair (`parsed_events`, `seen_events`); `seen_events` is kept
as a list in insertion order (only membership matters). -/
def processEvent (tz : Tz) (getrgb : String → Nat × Nat × Nat)
    (color : String) (st : List CanonicalEvent × List String)
    (event : RawOccurrence) : List CanonicalEvent × List String :=
  if event_key event ∈ st.2 then st
  else (st.1 ++ [mk_parsed_event tz getrgb (color, event)],
        st.2 ++ [event_key event])

/-- `Calendar.fetch_ics_events(calendar_urls, colors, tz, start, end)`.
`reader url s e` stands for the external
`fetch_calendar(url, s, e)` / `load_ics_in_date_range` capability. -/
def fetch_ics_events (reader : String → Int → Int → List RawOccurrence)
    (getrgb : String → Nat × Nat × Nat)
    (calendar_urls colors : List String) (tz : Tz) (s e : Int) :
    List CanonicalEvent :=
  ((calendar_urls.zip colors).foldl
    (fun st uc => (reader uc.1 s e).foldl (processEvent tz getrgb uc.2) st)
    ([], [])).1

/-- A possibly-naive Python `datetime` as produced by
`datetime.fromisoformat`: wall-clock seconds (since the epoch's wall
clock) and an optional UTC offset. -/
structure PyDT where
  wallSec : Int
  offMin : Option Int
deriving DecidableEq, Repr

/-- The aware `current_dt`, viewed as a possibly-naive datetime. -/
def PyDateTime.toPyDT (t : PyDateTime) : PyDT :=
  ⟨t.absSec + t.offMin * 60, some t.offMin⟩

/-- Two decimal digits. -/
def digit2 (a b : Char) : Option Nat :=
  if a.isDigit ∧ b.isDigit then some ((a.toNat - 48) * 10 + (b.toNat - 48))
  else none

/-- Four decimal digits. -/
def digit4 (a b c d : Char) : Option Nat :=
  match digit2 a b, digit2 c d with
  | some hi, some lo => some (hi * 100 + lo)
  | _, _ => none

/-- Wall-clock seconds of a calendar date, validating ranges the way
`datetime.fromisoformat` does. -/
def dateWallSec (y m d : Nat) : Option Int :=
  if 1 ≤ y ∧ y ≤ 9999 ∧ 1 ≤ m ∧ m ≤ 12 ∧ 1 ≤ d ∧
      (d : Int) ≤ daysInMonth (y : Int) (m : Int) then
    some (((Date.mk y m d).toordinal - 719163) * 86400)
  else none

/-- Wall-clock seconds within a day, validating ranges. -/
def timeSec (h mi s : Nat) : Option Int :=
  if h < 24 ∧ mi < 60 ∧ s < 60 then some ((h * 3600 + mi * 60 + s : Nat) : Int)
  else none

/-- Signed UTC offset in minutes from its `±HH:MM` rendering. -/
def offMinutes (sgn : Char) (h mi : Nat) : Option Int :=
  if (sgn = '+' ∨ sgn = '-') ∧ h < 24 ∧ mi < 60 then
    some (if sgn = '-' then -((h * 60 + mi : Nat) : Int) else ((h * 60 + mi : Nat) : Int))
  else none

/-- `datetime.fromisoformat`, restricted to the string shapes this plugin
can produce: a bare date `YYYY-MM-DD` (parsed as a naive midnight), a
naive `YYYY-MM-DDTHH:MM:SS`, or an aware `YYYY-MM-DDTHH:MM:SS±HH:MM`. -/
def fromisoformat (s : String) : Except String PyDT :=
  match s.toList with
  | [a, b, c, d, '-', e, f, '-', g, h] =>
    (match digit4 a b c d, digit2 e f, digit2 g h with
     | some y, some mo, some dy =>
       match dateWallSec y mo dy with
       | some w => .ok ⟨w, none⟩
       | none => .error "ValueError: Invalid isoformat string"
     | _, _, _ => .error "ValueError: Invalid isoformat string")
  | [a, b, c, d, '-', e, f, '-', g, h, 'T', i, j, ':', k, l, ':', m, n] =>
    (match digit4 a b c d, digit2 e f, digit2 g h,
           digit2 i j, digit2 k l, digit2 m n with
     | some y, some mo, some dy, some hh, some mi, some ss =>
       match dateWallSec y mo dy, timeSec hh mi ss with
       | some w, some t => .ok ⟨w + t, none⟩
       | _, _ => .error "ValueError: Invalid isoformat string"
     | _, _, _, _, _, _ => .error "ValueError: Invalid isoformat string")
  | [a, b, c, d, '-', e, f, '-', g, h, 'T', i, j, ':', k, l, ':', m, n,
     sgn, o, p, ':', q, r] =>
    (match digit4 a b c d, digit2 e f, digit2 g h,
           digit2 i j, digit2 k l, digit2 m n, digit2 o p, digit2 q r with
     | some y, some mo, some dy, some hh, some mi, some ss, some oh, some om =>
       match dateWallSec y mo dy, timeSec hh mi ss, offMinutes sgn oh om with
       | some w, some t, some off => .ok ⟨w + t, some off⟩
       | _, _, _ => .error "ValueError: Invalid isoformat string"
     | _, _, _, _, _, _, _, _ => .error "ValueError: Invalid isoformat string")
  | _ => .error "ValueError: Invalid isoformat string"

/-- Python `>` on datetimes: aware datetimes compare by absolute instant;
comparing a naive with an aware datetime raises `TypeError`. -/
def pyGt (a b : PyDT) : Except String Bool :=
  match a.offMin, b.offMin with
  | some oa, some ob => .ok (decide (a.wallSec - oa * 60 > b.wallSec - ob * 60))
  | _, _ => .error "TypeError: cannot compare offset-naive and offset-aware datetimes"

/-- The skip-completed post-filter of `Calendar.generate_image`:
`list(filter(lambda it: datetime.fromisoformat(it["end"]) > current_dt, events))`.
Looking up `it["end"]` on an event without an `end` key raises
`KeyError`. -/
def filterCompleted (now : PyDT) : List CanonicalEvent →
    Except String (List CanonicalEvent)
  | [] => .ok []
  | ev :: rest =>
    match ev.«end» with
    | none => .error "KeyError: end"
    | some s =>
      match fromisoformat s with
      | .error msg => .error msg
      | .ok dt =>
        match pyGt dt now with
        | .error msg => .error msg
        | .ok keep =>
          match filterCompleted now rest with
          | .error msg => .error msg
          | .ok rest' => .ok (if keep then ev :: rest' else rest')

/-- The view strings accepted by `Calendar.generate_image`. -/
def valid_views : List String :=
  ["timeGridDay", "timeGridWeek", "dayGridMonth", "listMonth", "listWeek",
   "listYear", "listDay"]

/-- `Calendar.generate_image(settings, device_config)` up to the external
rendering step: returns the template's `view` string and `events` list, or
the message of the exception Python would raise.  `tz`, `skip_completed`
and `current_dt` come from the device config and the clock; `reader` and
`getrgb` are the external fetch/parse capabilities. -/
def generate_image (settings : Settings) (tz : Tz) (skip_completed : Bool)
    (current_dt : PyDateTime)
    (reader : String → Int → Int → List RawOccurrence)
    (getrgb : String → Nat × Nat × Nat) :
    Except String (String × List CanonicalEvent) :=
  if truthyStr settings.viewMode = false then .error "View is required"
  else
    let view := settings.viewMode.getD ""
    if view ∉ valid_views then .error "Invalid view"
    else if settings.calendarURLs.getD [] = [] then
      .error "At least one calendar URL is required"
    else
      let calendar_urls := settings.calendarURLs.getD []
      if calendar_urls.any (fun url => strippedEmpty url) then
        .error "Invalid calendar URL"
      else
        let today := Date.fromordinal
          (Int.fdiv (current_dt.absSec + current_dt.offMin * 60) 86400 + 719163)
        match get_view_range view settings today with
        | none => .error "UnboundLocalError: end"
        | some (s, e) =>
          match settings.calendarColors with
          | none => .error "TypeError: zip argument is not iterable"
          | some colors =>
            let events := fetch_ics_events reader getrgb calendar_urls colors tz s e
            let view' := if view = "timeGridWeek" ∧
                settings.displayPreviousDays ≠ some "true" then "timeGrid"
              else view
            if skip_completed then
              match filterCompleted current_dt.toPyDT events with
              | .error msg => .error msg
              | .ok evs => .ok (view', evs)
            else .ok (view', events)

/-- The configuration errors of claim C9: missing/unknown view, no source,
or a blank source location. -/
def configInvalid (settings : Settings) : Prop :=
  truthyStr settings.viewMode = false ∨
  settings.viewMode.getD "" ∉ valid_views ∨
  settings.calendarURLs.getD [] = [] ∨
  ∃ url ∈ settings.calendarURLs.getD [], strippedEmpty url = true

instance (s : Settings) : Decidable (configInvalid s) := by
  unfold configInvalid; infer_instance

/-- The flattened feed-then-occurrence order of one aggregation call: each
occurrence paired with the color string of the source that produced it. -/
def occurrences (reader : String → Int → Int → List RawOccurrence)
    (calendar_urls colors : List String) (s e : Int) :
    List (String × RawOccurrence) :=
  (calendar_urls.zip colors).flatMap
    (fun uc => (reader uc.1 s e).map (fun ev => (uc.2, ev)))

/-- Reference dedup: keep each colored occurrence whose key is neither in
`seen` nor carried by an earlier kept element. -/
def firstPerKey (seen : List String) :
    List (String × RawOccurrence) → List (String × RawOccurrence)
  | [] => []
  | p :: ps =>
    if event_key p.2 ∈ seen then firstPerKey seen ps
    else p :: firstPerKey (seen ++ [event_key p.2]) ps

theorem foldl_processEvent_eq (tz : Tz) (getrgb : String → Nat × Nat × Nat)
    (l : List (String × RawOccurrence))
    (st : List CanonicalEvent × List String) :
    l.foldl (fun st p => processEvent tz getrgb p.1 st p.2) st =
      (st.1 ++ (firstPerKey st.2 l).map (mk_parsed_event tz getrgb),
       st.2 ++ (firstPerKey st.2 l).map (fun p => event_key p.2)) := by
  induction l generalizing st with
  | nil => simp [firstPerKey]
  | cons p ps ih =>
    simp only [List.foldl_cons, firstPerKey]
    by_cases h : event_key p.2 ∈ st.2
    · rw [if_pos h]
      show List.foldl _ (processEvent tz getrgb p.1 st p.2) ps = _
      rw [processEvent, if_pos h, ih]
    · rw [if_neg h]
      show List.foldl _ (processEvent tz getrgb p.1 st p.2) ps = _
      rw [processEvent, if_neg h, ih]
      simp

theorem fetch_ics_events_eq_firstPerKey
    (reader : String → Int → Int → List RawOccurrence)
    (getrgb : String → Nat × Nat × Nat)
    (calendar_urls colors : List String) (tz : Tz) (s e : Int) :
    fetch_ics_events reader getrgb calendar_urls colors tz s e =
      (firstPerKey [] (occurrences reader calendar_urls colors s e)).map
        (mk_parsed_event tz getrgb) := by
  rw [fetch_ics_events, occurrences]
  have main : ∀ (pairs : List (String × String))
      (st : List CanonicalEvent × List String),
      pairs.foldl
        (fun st uc => (reader uc.1 s e).foldl (processEvent tz getrgb uc.2) st)
        st =
      (pairs.flatMap
        (fun uc => (reader uc.1 s e).map (fun ev => (uc.2, ev)))).foldl
        (fun st p => processEvent tz getrgb p.1 st p.2) st := by
    intro pairs
    induction pairs with
    | nil => intro st; simp
    | cons uc rest ih =>
      intro st
      simp only [List.foldl_cons, List.flatMap_cons, List.foldl_append, ih,
        List.foldl_map]
  rw [main, foldl_processEvent_eq]
  simp

theorem firstPerKey_filter_eq_find (k : String) :
    ∀ (l : List (String × RawOccurrence)) (seen : List String),
    (firstPerKey seen l).filter (fun p => event_key p.2 == k) =
      (if k ∈ seen then []
       else (l.find? (fun p => event_key p.2 == k)).toList) := by
  intro l
  induction l with
  | nil => intro seen; simp [firstPerKey]
  | cons p ps ih =>
    intro seen
    rw [firstPerKey]
    by_cases he : event_key p.2 = k
    · subst he
      by_cases hk : event_key p.2 ∈ seen
      · rw [if_pos hk, ih, if_pos hk, if_pos hk]
      · rw [if_neg hk, List.filter_cons_of_pos (by simp), ih,
          if_pos (by simp), if_neg hk,
          List.find?_cons_of_pos _ (by simp)]
        rfl
    · have hne : ¬ (event_key p.2 == k) = true := by simpa using he
      by_cases hp : event_key p.2 ∈ seen
      · rw [if_pos hp, ih]
        by_cases hk : k ∈ seen
        · rw [if_pos hk, if_pos hk]
        · rw [if_neg hk, if_neg hk,
            List.find?_cons_of_neg (p := fun q : String × RawOccurrence => event_key q.2 == k) _ hne]
      · rw [if_neg hp,
          List.filter_cons_of_neg (p := fun q : String × RawOccurrence => event_key q.2 == k) hne, ih]
        by_cases hk : k ∈ seen
        · rw [if_pos (by simp [hk]), if_pos hk]
        · rw [if_neg (by
              simp only [List.mem_append, List.mem_singleton]
              rintro (h | h)
              · exact hk h
              · exact he h.symm),
            if_neg hk,
            List.find?_cons_of_neg (p := fun q : String × RawOccurrence => event_key q.2 == k) _ hne]

theorem daysBeforeMonth_nonneg (m : Int) (h1 : 1 ≤ m) (h2 : m ≤ 12) :
    0 ≤ daysBeforeMonth m := by
  interval_cases m <;> norm_num [daysBeforeMonth]

theorem daysBeforeMonth_le (m : Int) (h1 : 1 ≤ m) (h2 : m ≤ 12) :
    daysBeforeMonth m ≤ 334 := by
  interval_cases m <;> norm_num [daysBeforeMonth]

theorem daysBeforeMonth_mono (m m' : Int) (h1 : 1 ≤ m) (h : m ≤ m')
    (h2 : m' ≤ 12) : daysBeforeMonth m ≤ daysBeforeMonth m' := by
  have h1' : 1 ≤ m' := le_trans h1 h
  have h2' : m ≤ 12 := le_trans h h2
  interval_cases m <;> interval_cases m' <;> norm_num [daysBeforeMonth]

theorem daysBeforeYear_gap (y y' : Int) (h : y < y') :
    daysBeforeYear y + 340 ≤ daysBeforeYear y' := by
  unfold daysBeforeYear; omega

/-- Every date of a calendar month after (year `y`, month `m`) has an
ordinal more than `toordinal ⟨y, m, 1⟩ - 7`. -/
theorem toordinal_lt_of_later_month (y m : Int) (d' : Date)
    (hm1 : 1 ≤ m) (hm2 : m ≤ 12) (hv : d'.Valid)
    (h : y < d'.year ∨ (y = d'.year ∧ m < d'.month)) :
    (Date.mk y m 1).toordinal - 7 < d'.toordinal := by
  obtain ⟨hy1, hy2, hm1', hm2', hd1, hd2⟩ := hv
  have hA1 : (if 2 < m ∧ isLeap y then (1 : Int) else 0) ≤ 1 := by
    split <;> norm_num
  have hA2 : (0 : Int) ≤ if 2 < d'.month ∧ isLeap d'.year then 1 else 0 := by
    split <;> norm_num
  have hbm := daysBeforeMonth_le m hm1 hm2
  have hbm' := daysBeforeMonth_nonneg d'.month hm1' hm2'
  rcases h with h | ⟨hy, hm⟩
  · have hgap := daysBeforeYear_gap y d'.year h
    simp only [Date.toordinal]
    omega
  · subst hy
    have hmono := daysBeforeMonth_mono m d'.month hm1 (le_of_lt hm) hm2'
    simp only [Date.toordinal]
    omega

/-- **C1.** For the `timeGridWeek` view with `displayPreviousDays="true"`
and any week-start day in 1..7, `get_view_range` returns
`start = midnight of (today - ((weekday(today) - (weekStartDay-1)) mod 7) days)`
and `end = start + 7 days`, with the 0-based Monday=0 weekday numbering; in
particular, with `weekStartDay = 1` and `today` a Wednesday (weekday 2),
`start` is the Monday of that week (two days back, weekday 0). -/
theorem week_grid_leading_days_window (today : Date) (s : Settings)
    (wsd : Int) (hv : today.Valid) (hs : s.displayPreviousDays = some "true")
    (hw : s.weekStartDay = some wsd) (h1 : 1 ≤ wsd) (h7 : wsd ≤ 7) :
    get_view_range "timeGridWeek" s today =
      some (today.toordinal - (today.weekday - (wsd - 1)) % 7,
            today.toordinal - (today.weekday - (wsd - 1)) % 7 + 7) ∧
    (wsd = 1 → today.weekday = 2 →
      today.toordinal - (today.weekday - (wsd - 1)) % 7 = today.toordinal - 2 ∧
      weekdayOfOrdinal (today.toordinal - 2) = 0) := by
  constructor
  · simp only [get_view_range, hs, hw, Option.getD_some]
    have hmod : (today.weekday - (wsd - 1) % 7) % 7 =
        (today.weekday - (wsd - 1)) % 7 := by omega
    rw [hmod]
    simp
  · intro hw1 hwed
    have hweekday : (today.toordinal - 1) % 7 = 2 := hwed
    constructor
    · rw [hwed, hw1]; norm_num
    · show (today.toordinal - 2 - 1) % 7 = 0
      omega

/-- Closed check of C1 at `today` = 2025-10-08 (a Wednesday) with
`weekStartDay = 1`. -/
theorem week_grid_leading_days_window_check :
    get_view_range "timeGridWeek"
        { displayPreviousDays := some "true", weekStartDay := some 1 }
        (Date.mk 2025 10 8) =
      some ((Date.mk 2025 10 8).toordinal -
              ((Date.mk 2025 10 8).weekday - (1 - 1)) % 7,
            (Date.mk 2025 10 8).toordinal -
              ((Date.mk 2025 10 8).weekday - (1 - 1)) % 7 + 7) ∧
    (Date.mk 2025 10 8).toordinal -
        ((Date.mk 2025 10 8).weekday - (1 - 1)) % 7 =
      (Date.mk 2025 10 8).toordinal - 2 ∧
    weekdayOfOrdinal ((Date.mk 2025 10 8).toordinal - 2) = 0 := by
  have h := week_grid_leading_days_window (Date.mk 2025 10 8)
    { displayPreviousDays := some "true", weekStartDay := some 1 } 1
    (by decide) rfl rfl (by decide) (by decide)
  exact ⟨h.1, h.2 rfl (by decide)⟩

/-- **C2.** For the `dayGridMonth` view, `get_view_range` returns
`start = first of the current month - 7 days` and
`end = first of the current month + 42 days`; hence `end - start = 49`
days, and `start` is strictly before every date lying in a month later
than `today`'s month (so it is never in a later month). -/
theorem month_grid_window (today : Date) (s : Settings) (hv : today.Valid) :
    get_view_range "dayGridMonth" s today =
      some ((Date.mk today.year today.month 1).toordinal - 7,
            (Date.mk today.year today.month 1).toordinal + 42) ∧
    ((Date.mk today.year today.month 1).toordinal + 42) -
        ((Date.mk today.year today.month 1).toordinal - 7) = 49 ∧
    (∀ d' : Date, d'.Valid →
      (today.year < d'.year ∨
        (today.year = d'.year ∧ today.month < d'.month)) →
      (Date.mk today.year today.month 1).toordinal - 7 < d'.toordinal) := by
  refine ⟨rfl, by omega, ?_⟩
  intro d' hv' hlater
  exact toordinal_lt_of_later_month today.year today.month d'
    hv.2.2.1 hv.2.2.2.1 hv' hlater

/-- Closed check of C2 at `today` = 2024-02-29 (a leap day). -/
theorem month_grid_window_check :
    get_view_range "dayGridMonth" {} (Date.mk 2024 2 29) =
      some ((Date.mk 2024 2 1).toordinal - 7,
            (Date.mk 2024 2 1).toordinal + 42) ∧
    (Date.mk 2024 3 1).toordinal >
      (Date.mk 2024 2 1).toordinal - 7 := by
  have h := month_grid_window (Date.mk 2024 2 29) {} (by decide)
  exact ⟨h.1, h.2.2 (Date.mk 2024 3 1) (by decide) (by norm_num)⟩

/-- **C8.** All four list views resolve to the same window:
`start` = midnight of today and `end` = today + 14 days. -/
theorem list_views_fixed_two_week_window (v : String) (s : Settings)
    (today : Date)
    (hv : v ∈ ["listDay", "listWeek", "listMonth", "listYear"]) :
    get_view_range v s today =
      some (today.toordinal, today.toordinal + 14) := by
  simp only [List.mem_cons, List.not_mem_nil, or_false] at hv
  rcases hv with h | h | h | h <;> subst h <;> rfl

/-- Closed check of C8 for the `listYear` view at 2025-10-12. -/
theorem list_views_fixed_two_week_window_check :
    get_view_range "listYear" {} (Date.mk 2025 10 12) =
      some ((Date.mk 2025 10 12).toordinal,
            (Date.mk 2025 10 12).toordinal + 14) :=
  list_views_fixed_two_week_window "listYear" {} (Date.mk 2025 10 12)
    (by decide)

/-- **C5 (counterexample).** The claim writes the light text color as
`#FFFFFF`; the code returns the lowercase string `'#ffffff'`, so the black
background does not map to `#FFFFFF`. -/
theorem contrast_black_not_uppercase_white :
    get_contrast_color (0, 0, 0) ≠ "#FFFFFF" := by decide

/-- **C5 (amended).** For every parsed RGB color the contrast color is
chosen by the luma `Y = (299R + 587G + 114B) / 1000` with threshold 150
inclusive on the light side: `#000000` when `Y ≥ 150`, else the lowercase
`#ffffff`; white maps to `#000000` and black maps to `#ffffff`. -/
theorem contrast_color_rule (r g b : Nat) :
    get_contrast_color (r, g, b) =
      (if (150 : ℚ) ≤ ((r : ℚ) * 299 + (g : ℚ) * 587 + (b : ℚ) * 114) / 1000
       then "#000000" else "#ffffff") ∧
    get_contrast_color (255, 255, 255) = "#000000" ∧
    get_contrast_color (0, 0, 0) = "#ffffff" := by
  refine ⟨?_, by decide, by decide⟩
  have hiff : (150 : ℚ) ≤
      ((r : ℚ) * 299 + (g : ℚ) * 587 + (b : ℚ) * 114) / 1000 ↔
      150 * 1000 ≤ r * 299 + g * 587 + b * 114 := by
    rw [le_div_iff₀ (by norm_num : (0 : ℚ) < 1000)]
    constructor
    · intro h; exact_mod_cast h
    · intro h; exact_mod_cast h
  rw [get_contrast_color, if_congr hiff.symm rfl rfl]

/-- **C7.** `allDay` is true iff the start marker is a floating calendar
date; a floating date start is serialized date-only (whatever the end
marker is), and an aware instant start is converted to the supplied
timezone, serialized with offset, and yields `allDay = false`. -/
theorem all_day_iff_floating_start (event : RawOccurrence) (tz : Tz) :
    ((parse_data_points event tz).2.2 = true ↔
      ∃ d, event.dtstart = Marker.dateVal d) ∧
    (∀ d, event.dtstart = Marker.dateVal d →
      (parse_data_points event tz).1 = d.isoformat) ∧
    (∀ t, event.dtstart = Marker.dtVal t →
      (parse_data_points event tz).1 = (t.astimezone tz).isoformat ∧
      (parse_data_points event tz).2.2 = false) := by
  obtain ⟨sm, raw, st, den, dur⟩ := event
  cases st with
  | dtVal t =>
    refine ⟨by simp [parse_data_points], by simp [parse_data_points], ?_⟩
    rintro t' ht
    injection ht with h
    subst h
    exact ⟨rfl, rfl⟩
  | dateVal d =>
    refine ⟨by simp [parse_data_points], ?_, by simp [parse_data_points]⟩
    rintro d' hd
    injection hd with h
    subst h
    rfl

/-- A decoded occurrence whose start is a floating date and which carries
neither an end marker nor a duration. -/
def ev_no_end : RawOccurrence :=
  { summary := "holiday", dtstartRaw := "2024-05-02",
    dtstart := Marker.dateVal ⟨2024, 5, 2⟩, dtend := none, duration := none }

/-- A timed occurrence whose explicit end (2024-05-01 15:00 UTC-4) lies in
the future of the reference instant used below. -/
def ev_future : RawOccurrence :=
  { summary := "future", dtstartRaw := "f",
    dtstart := Marker.dtVal ⟨1714580000, -240⟩,
    dtend := some (Marker.dtVal ⟨1714590000, -240⟩), duration := none }

/-- Closed check of C7: the floating-date start of `ev_no_end` gives
`allDay = true` and a date-only start; the aware start of `ev_future`
gives `allDay = false`. -/
theorem all_day_iff_floating_start_check :
    (parse_data_points ev_no_end ⟨-240⟩).2.2 = true ∧
    (parse_data_points ev_no_end ⟨-240⟩).1 = (Date.mk 2024 5 2).isoformat ∧
    (parse_data_points ev_future ⟨-240⟩).2.2 = false :=
  ⟨(all_day_iff_floating_start ev_no_end ⟨-240⟩).1.mpr ⟨⟨2024, 5, 2⟩, rfl⟩,
   (all_day_iff_floating_start ev_no_end ⟨-240⟩).2.1 ⟨2024, 5, 2⟩ rfl,
   ((all_day_iff_floating_start ev_future ⟨-240⟩).2.2 ⟨1714580000, -240⟩
      rfl).2⟩

/-- **C6.** End resolution: an explicit end marker wins (a present
duration is ignored); otherwise a duration gives `end = dtstart +
duration` serialized; otherwise the parsed end is `none` and the built
event dictionary carries no `end` field at all. -/
theorem end_resolution_precedence (event : RawOccurrence) (tz : Tz)
    (color : String) (getrgb : String → Nat × Nat × Nat) :
    (parse_data_points event tz).2.1 =
      (match event.dtend, event.duration with
       | some (Marker.dtVal t), _ => some (t.astimezone tz).isoformat
       | some (Marker.dateVal d), _ => some d.isoformat
       | none, some dur => some (event.dtstart.add dur).isoformat
       | none, none => none) ∧
    (event.dtend = none → event.duration = none →
      (mk_parsed_event tz getrgb (color, event)).«end» = none) := by
  obtain ⟨sm, raw, st, den, dur⟩ := event
  constructor
  · rcases den with _ | ⟨_ | _⟩ <;> rcases dur with _ | _ <;>
      simp [parse_data_points]
  · rintro rfl rfl
    simp [mk_parsed_event, parse_data_points, truthyStr]

/-- An occurrence carrying both an explicit (floating-date) end and a
duration: the explicit end must win. -/
def ev_both : RawOccurrence :=
  { summary := "both", dtstartRaw := "b",
    dtstart := Marker.dateVal ⟨2024, 5, 1⟩,
    dtend := some (Marker.dateVal ⟨2024, 5, 3⟩),
    duration := some ⟨9, 0⟩ }

/-- Closed check of C6: with both end and duration present the explicit
end is used (not start + 9 days), and with neither the built event has no
`end` field. -/
theorem end_resolution_precedence_check :
    (parse_data_points ev_both ⟨0⟩).2.1 = some (Date.mk 2024 5 3).isoformat ∧
    (mk_parsed_event ⟨0⟩ (fun _ => (0, 0, 0)) ("#000000", ev_no_end)).«end» =
      none := by
  constructor
  · rw [(end_resolution_precedence ev_both ⟨0⟩ "#000000"
      (fun _ => (0, 0, 0))).1]
    decide
  · exact (end_resolution_precedence ev_no_end ⟨0⟩ "#000000"
      (fun _ => (0, 0, 0))).2 rfl rfl

/-- **C3.** One aggregation call returns exactly the canonical events of
the key-wise first occurrences: the output is
`firstPerKey` of the flattened feed-then-occurrence stream mapped through
the event constructor, and for every dedup key the kept stream contains
precisely the first occurrence of that key (paired with the color of the
source that produced it) — so any two occurrences sharing a key yield one
`CanonicalEvent`, the first encountered, with the first producing source's
configured `backgroundColor`. -/
theorem aggregate_dedup_first_per_key
    (reader : String → Int → Int → List RawOccurrence)
    (getrgb : String → Nat × Nat × Nat) (calendar_urls colors : List String)
    (tz : Tz) (s e : Int) (k : String) :
    fetch_ics_events reader getrgb calendar_urls colors tz s e =
      (firstPerKey [] (occurrences reader calendar_urls colors s e)).map
        (mk_parsed_event tz getrgb) ∧
    (firstPerKey [] (occurrences reader calendar_urls colors s e)).filter
        (fun p => event_key p.2 == k) =
      ((occurrences reader calendar_urls colors s e).find?
        (fun p => event_key p.2 == k)).toList := by
  refine ⟨fetch_ics_events_eq_firstPerKey reader getrgb calendar_urls colors
    tz s e, ?_⟩
  rw [firstPerKey_filter_eq_find, if_neg (List.not_mem_nil k)]

/-- Title `a_b` with raw start `c`: same dedup key as `occ_a`. -/
def occ_ab : RawOccurrence :=
  { summary := "a_b", dtstartRaw := "c",
    dtstart := Marker.dateVal ⟨2024, 5, 1⟩, dtend := none, duration := none }

/-- Title `a` with raw start `b_c`: same dedup key as `occ_ab`. -/
def occ_a : RawOccurrence :=
  { summary := "a", dtstartRaw := "b_c",
    dtstart := Marker.dateVal ⟨2024, 5, 6⟩, dtend := none, duration := none }

/-- **C10.** The `_`-concatenated dedup key is not injective on
(title, raw start) pairs: `occ_ab` and `occ_a` differ as pairs yet share
the key `a_b_c`, and aggregation keeps only the first of them. -/
theorem dedup_key_not_injective :
    (occ_ab.summary, occ_ab.dtstartRaw) ≠ (occ_a.summary, occ_a.dtstartRaw) ∧
    event_key occ_ab = event_key occ_a ∧
    fetch_ics_events (fun _ _ _ => [occ_ab, occ_a]) (fun _ => (255, 0, 0))
        ["http://cal"] ["#ff0000"] ⟨0⟩ 0 14 =
      [mk_parsed_event ⟨0⟩ (fun _ => (255, 0, 0)) ("#ff0000", occ_ab)] := by
  exact ⟨by decide, by decide, rfl⟩

/-- **C9.** Whenever the configuration is invalid (missing or unknown
view, no calendar URL, or a blank URL), `generate_image` fails with an
error whose message is independent of the reader and color parser — no
reader is invoked for any source. -/
theorem invalid_config_errors_before_fetch (settings : Settings) (tz : Tz)
    (skip : Bool) (now : PyDateTime) (h : configInvalid settings) :
    ∃ msg, ∀ (reader : String → Int → Int → List RawOccurrence)
      (getrgb : String → Nat × Nat × Nat),
      generate_image settings tz skip now reader getrgb =
        Except.error msg := by
  by_cases h1 : truthyStr settings.viewMode = false
  · refine ⟨"View is required", fun reader getrgb => ?_⟩
    simp only [generate_image]
    rw [if_pos h1]
  · by_cases h2 : settings.viewMode.getD "" ∈ valid_views
    · by_cases h3 : settings.calendarURLs.getD [] = []
      · refine ⟨"At least one calendar URL is required",
          fun reader getrgb => ?_⟩
        simp only [generate_image]
        rw [if_neg h1, if_neg (by simpa using h2), if_pos h3]
      · by_cases h4 : (settings.calendarURLs.getD []).any
            (fun url => strippedEmpty url) = true
        · refine ⟨"Invalid calendar URL", fun reader getrgb => ?_⟩
          simp only [generate_image]
          rw [if_neg h1, if_neg (by simpa using h2), if_neg h3, if_pos h4]
        · exfalso
          rcases h with h | h | h | h
          · exact h1 h
          · exact h h2
          · exact h3 h
          · exact h4 (List.any_eq_true.mpr (by
              obtain ⟨url, hmem, hws⟩ := h
              exact ⟨url, hmem, hws⟩))
    · refine ⟨"Invalid view", fun reader getrgb => ?_⟩
      simp only [generate_image]
      rw [if_neg h1, if_pos (by simpa using h2)]

/-- Closed check of C9 at an unknown view string: the call errors for
every reader. -/
theorem invalid_config_errors_before_fetch_check :
    ∃ msg, ∀ (reader : String → Int → Int → List RawOccurrence)
      (getrgb : String → Nat × Nat × Nat),
      generate_image { viewMode := some "weekly" } ⟨0⟩ false ⟨0, 0⟩ reader
        getrgb = Except.error msg :=
  invalid_config_errors_before_fetch { viewMode := some "weekly" } ⟨0⟩ false
    ⟨0, 0⟩ (by decide)

/-- A timed occurrence whose explicit end (2024-05-01 13:40 UTC-4) lies in
the past of the reference instant used below. -/
def ev_past : RawOccurrence :=
  { summary := "past", dtstartRaw := "p",
    dtstart := Marker.dtVal ⟨1714580000, -240⟩,
    dtend := some (Marker.dtVal ⟨1714584000, -240⟩), duration := none }

/-- A valid one-source configuration. -/
def settings_one_url : Settings :=
  { viewMode := some "listDay", calendarURLs := some ["http://cal"],
    calendarColors := some ["#ffffff"] }

/-- **C4 (code bug).** With `skip_completed` enabled, an event whose
dictionary has no `end` key (here `ev_no_end`, an all-day occurrence with
neither `DTEND` nor `DURATION`) makes the post-filter raise `KeyError`
instead of retaining the event, contradicting the claim that the filter
succeeds and never drops such events.  On events that do carry aware
`end` timestamps the filter behaves as claimed: the event ending at or
before `current_dt` is dropped and the later one kept. -/
theorem skip_completed_keyerror_on_missing_end :
    (mk_parsed_event ⟨-240⟩ (fun _ => (255, 255, 255))
      ("#ffffff", ev_no_end)).«end» = none ∧
    generate_image settings_one_url ⟨-240⟩ true ⟨1714584605, -240⟩
        (fun _ _ _ => [ev_past, ev_future, ev_no_end])
        (fun _ => (255, 255, 255)) =
      Except.error "KeyError: end" ∧
    generate_image settings_one_url ⟨-240⟩ true ⟨1714584605, -240⟩
        (fun _ _ _ => [ev_past, ev_future]) (fun _ => (255, 255, 255)) =
      Except.ok ("listDay",
        [mk_parsed_event ⟨-240⟩ (fun _ => (255, 255, 255))
          ("#ffffff", ev_future)]) :=
  ⟨rfl, rfl, rfl⟩

end Cal
